import Mathlib

/-! Verification development for the shared_memory crate (src/lib.rs).

The embedding models addresses relative to the mapping base (map_ptr = 0),
so the running metadata cursor and the user-region start are byte offsets
into the region.  Arithmetic on usize values that release-mode Rust wraps
on overflow (the lock-range check, the metadata-size accumulation, the
mapped-size check of open, the total size passed to create_mapping) is
modelled with explicit reduction modulo 2^64. -/

/-- Wrapping 64-bit usize arithmetic (release-mode Rust overflow semantics). -/
def w64 (n : Nat) : Nat := n % (2 ^ 64)

/-- Byte size of MetaDataHeader, four usize fields on x86-64 (lib.rs 65-70). -/
def sizeOfMetaDataHeader : Nat := 32

/-- Byte size of LockHeader, a u8 plus padding plus two usize on x86-64 (lib.rs 71-75). -/
def sizeOfLockHeader : Nat := 24

/-- Byte size of EventHeader, a single u8 (lib.rs 76-78). -/
def sizeOfEventHeader : Nat := 1

/-- Modelled from the spec: locking.rs is not under src/.  The lock kinds are
the mutex and the read-write lock (spec sections 2 and 4.1). -/
inductive LockType where
  | Mutex
  | RwLock
deriving DecidableEq, Repr

/-- Modelled from the spec: kind tags are stable small integers (spec 4.1).
This is the value of lock_type as u8 stored by add_lock and by open. -/
def uidOf : LockType → Nat
  | .Mutex => 0
  | .RwLock => 1

/-- Modelled from the spec: nativeFootprintSize is a fixed byte count per lock
kind, independent of the data guarded (spec 4.1).  This is
interface.size_of() of the LockImpl chosen by os_impl::lockimpl_from_type;
the concrete values used here are the pthread footprints on Linux x86-64. -/
def implSizeOf : LockType → Nat
  | .Mutex => 40
  | .RwLock => 56

/-- Error kinds of the create/open protocol.  The source reports errors as
distinct message strings (spec section 7 taxonomy); each constructor stands
for one distinct message site in lib.rs. -/
inductive SmError where
  | alreadyExists
  | notFound
  | mappingError
  | tooSmallHeader
  | tooSmallMapping
  | invalidRange
  | unknownLockKind
  | initError
  | corruptLockHeader
  | corruptLockData
  | corruptEventSpace
  | corruptEnd
  | persistError
  | writeError
deriving DecidableEq, Repr

/-- Modelled from the spec: lock_uid_to_type lives in locking.rs, which is not
under src/.  An unrecognized tag fails with UnknownLockKind (spec 4.1). -/
def lock_uid_to_type (uid : Nat) : Except SmError LockType :=
  if uid = 0 then .ok .Mutex
  else if uid = 1 then .ok .RwLock
  else .error .unknownLockKind

/-- MetaDataHeader (lib.rs 65-70): the GlobalHeader of the region. -/
structure MetaDataHeader where
  meta_size : Nat
  user_size : Nat
  num_locks : Nat
  num_events : Nat
deriving DecidableEq, Repr

/-- LockHeader (lib.rs 71-75): one per-lock record in the metadata. -/
structure LockHeader where
  uid : Nat
  offset : Nat
  length : Nat
deriving DecidableEq, Repr

/-- EventHeader (lib.rs 76-78): one per-event record in the metadata. -/
structure EventHeader where
  event_id : Nat
deriving DecidableEq, Repr

/-- GenericLock (locking.rs): uid tag, governed byte range, the two derived
addresses (offsets from the base, 0 stands for null_mut), and the lock kind
standing for the bound LockImpl interface. -/
structure GenericLock where
  uid : Nat
  offset : Nat
  length : Nat
  lock_ptr : Nat
  data_ptr : Nat
  ty : LockType
deriving DecidableEq, Repr

/-- SharedMemConf (lib.rs 81-89).  Events carry only their u8 uid. -/
structure SharedMemConf where
  owner : Bool
  link_path : String
  size : Nat
  meta_size : Nat
  lock_data : List GenericLock
  event_data : List Nat
deriving DecidableEq, Repr

/-- SharedMemConf::valid_lock_range (lib.rs 92-101).  The addition
offset + length is a usize addition and wraps on overflow in release mode. -/
def valid_lock_range (map_size offset length : Nat) : Bool :=
  if offset = map_size then false
  else if w64 (offset + length) > map_size then false
  else true

/-- SharedMemConf::new (lib.rs 104-114). -/
def SharedMemConf.new (new_link_path : String) (map_size : Nat) : SharedMemConf :=
  { owner := false
    link_path := new_link_path
    size := map_size
    meta_size := sizeOfMetaDataHeader
    lock_data := []
    event_data := [] }

/-- SharedMemConf::add_lock (lib.rs 117-141): validate the range, append a
GenericLock with null pointers, and grow meta_size by the header size plus
the native footprint of the lock kind. -/
def addLock (conf : SharedMemConf) (lock_type : LockType) (offset length : Nat) :
    Except SmError SharedMemConf :=
  if valid_lock_range conf.size offset length = false then .error .invalidRange
  else
    let newLock : GenericLock :=
      { uid := uidOf lock_type, offset := offset, length := length
        lock_ptr := 0, data_ptr := 0, ty := lock_type }
    .ok { conf with
          meta_size := w64 (conf.meta_size + (sizeOfLockHeader + implSizeOf lock_type))
          lock_data := conf.lock_data ++ [newLock] }

/-- Chain of add_lock calls starting from SharedMemConf::new, used to state
properties of configurations the builder can actually produce. -/
def buildConfAux : SharedMemConf → List (LockType × Nat × Nat) → Except SmError SharedMemConf
  | c, [] => .ok c
  | c, (t, off, len) :: rs =>
    match addLock c t off len with
    | .error e => .error e
    | .ok c2 => buildConfAux c2 rs

/-- Configuration built by new followed by the given add_lock requests. -/
def buildConf (path : String) (map_size : Nat) (reqs : List (LockType × Nat × Nat)) :
    Except SmError SharedMemConf :=
  buildConfAux (SharedMemConf.new path map_size) reqs

/-- Typed read oracle over the mapped bytes (base address 0): reading a record
of each kind at a byte offset yields these values.  Arbitrary functions model
arbitrary, possibly hostile or corrupted, mapping contents. -/
structure Memory where
  meta : MetaDataHeader
  lockAt : Nat → LockHeader
  eventAt : Nat → EventHeader

/-- Total metadata bytes occupied by a list of locks: each contributes its
LockHeader plus its native footprint (lib.rs 135 and the create loop). -/
def lockBytes : List GenericLock → Nat
  | [] => 0
  | l :: ls => (sizeOfLockHeader + implSizeOf l.ty) + lockBytes ls

/-- Lock list as mutated by the create loop (lib.rs 178-192): each lock gets
lock_ptr just past its written header and data_ptr at user start + offset. -/
def placeLocks (user : Nat) : Nat → List GenericLock → List GenericLock
  | _, [] => []
  | cur, l :: ls =>
    { l with lock_ptr := cur + sizeOfLockHeader, data_ptr := user + l.offset } ::
      placeLocks user (cur + (sizeOfLockHeader + implSizeOf l.ty)) ls

/-- LockHeader reader of the memory produced by the create loop: the header of
each configured lock sits at its running cursor position (lib.rs 178-184). -/
def layoutLockAt : Nat → List GenericLock → Nat → LockHeader
  | _, [], _ => { uid := 0, offset := 0, length := 0 }
  | cur, l :: ls, p =>
    if p = cur then { uid := l.uid, offset := l.offset, length := l.length }
    else layoutLockAt (cur + (sizeOfLockHeader + implSizeOf l.ty)) ls p

/-- EventHeader reader of the memory produced by the create loop
(lib.rs 195-206): event headers follow the locks, one byte each. -/
def layoutEventAt : Nat → List Nat → Nat → EventHeader
  | _, [], _ => { event_id := 0 }
  | cur, e :: es, p =>
    if p = cur then { event_id := e }
    else layoutEventAt (cur + sizeOfEventHeader) es p

/-- Contents of the region written by SharedMemConf::create (lib.rs 169-206):
the GlobalHeader at offset 0, then lock headers with footprints, then event
headers. -/
def createMemory (conf : SharedMemConf) : Memory :=
  { meta :=
      { meta_size := conf.meta_size
        user_size := conf.size
        num_locks := conf.lock_data.length
        num_events := conf.event_data.length }
    lockAt := layoutLockAt sizeOfMetaDataHeader conf.lock_data
    eventAt := layoutEventAt (sizeOfMetaDataHeader + lockBytes conf.lock_data) conf.event_data }

/-- Lock walk of SharedMem::open (lib.rs 335-377), instrumented with the list
of cursor positions at which LockHeader fields were actually read.  The
reference formed at lib.rs 337 reads no bytes; the first field access
(lib.rs 345) happens after the bound check at lib.rs 340, so the model reads
the header after that check.  Modelled from the spec: interface.init (an
external collaborator absent from src/) attaches without failing here; an
InitError would propagate exactly like the other errors. -/
def openLocksAux (mem : Memory) (user size : Nat) :
    Nat → Nat → Except SmError (List GenericLock × Nat) × List Nat
  | cur, 0 => (.ok ([], cur), [])
  | cur, n + 1 =>
    if cur + sizeOfLockHeader > user then (.error .corruptLockHeader, [])
    else
      let hdr := mem.lockAt cur
      match lock_uid_to_type hdr.uid with
      | .error e => (.error e, [cur])
      | .ok lt =>
        if valid_lock_range size hdr.offset hdr.length = false then
          (.error .invalidRange, [cur])
        else if cur + (sizeOfLockHeader + implSizeOf lt) > user then
          (.error .corruptLockData, [cur])
        else
          let newLock : GenericLock :=
            { uid := uidOf lt, offset := hdr.offset, length := hdr.length
              lock_ptr := cur + sizeOfLockHeader, data_ptr := user + hdr.offset, ty := lt }
          let rest := openLocksAux mem user size (cur + (sizeOfLockHeader + implSizeOf lt)) n
          (match rest.1 with
           | .error e => .error e
           | .ok (ls, fin) => .ok (newLock :: ls, fin),
           cur :: rest.2)

/-- Event walk of SharedMem::open (lib.rs 379-387): bound check strictly
before each one-byte header is consumed. -/
def openEvents (mem : Memory) (user : Nat) : Nat → Nat → Except SmError Nat
  | cur, 0 => .ok cur
  | cur, n + 1 =>
    if cur ≥ user then .error .corruptEventSpace
    else openEvents mem user (cur + sizeOfEventHeader) n

/-- SharedMem::open (lib.rs 270-398) after the link file was read and the
mapping attached: sz is os_map.map_size and mem its contents.  Returns the
reconstructed configuration of the handle, or the first error. -/
def openMem (path : String) (mem : Memory) (sz : Nat) : Except SmError SharedMemConf :=
  if sizeOfMetaDataHeader > sz then .error .tooSmallHeader
  else if sz < w64 (mem.meta.meta_size + mem.meta.user_size) then .error .tooSmallMapping
  else
    match (openLocksAux mem mem.meta.meta_size mem.meta.user_size
        sizeOfMetaDataHeader mem.meta.num_locks).1 with
    | .error e => .error e
    | .ok (locks, cur) =>
      match openEvents mem mem.meta.meta_size cur mem.meta.num_events with
      | .error e => .error e
      | .ok cur2 =>
        if cur2 ≠ mem.meta.meta_size then .error .corruptEnd
        else
          .ok { owner := false
                link_path := path
                size := mem.meta.user_size
                meta_size := mem.meta.meta_size
                lock_data := locks
                event_data := [] }

/-- Positions at which the very same open run read LockHeader fields: the
instrumentation trace of the lock walk, empty when open failed before it. -/
def openMemLockReads (path : String) (mem : Memory) (sz : Nat) : List Nat :=
  if sizeOfMetaDataHeader > sz then []
  else if sz < w64 (mem.meta.meta_size + mem.meta.user_size) then []
  else
    (openLocksAux mem mem.meta.meta_size mem.meta.user_size
      sizeOfMetaDataHeader mem.meta.num_locks).2

/-- Cursor position after consuming all lock and event records, checks on the
preliminary sizes aside; none when a walk step failed. -/
def openFinalCursor (mem : Memory) : Option Nat :=
  match (openLocksAux mem mem.meta.meta_size mem.meta.user_size
      sizeOfMetaDataHeader mem.meta.num_locks).1 with
  | .error _ => none
  | .ok (_, cur) =>
    match openEvents mem mem.meta.meta_size cur mem.meta.num_events with
    | .error _ => none
    | .ok cur2 => some cur2

/-- Environment of one SharedMemConf::create call: the state of the link path
and the responses of the external collaborators.  Modelled from the spec
(section 6): os_impl (absent from src/) returns an OS-assigned unique
identifier, independent of the requested name; initOk i tells whether the
i-th lock's interface.init succeeds; writeResult is the byte count the write
of the link file reports (none for an outright write failure). -/
structure CreateEnv where
  linkFileExists : Bool
  mappingResult : Option String
  initOk : Nat → Bool
  writeResult : Option Nat

deriving instance DecidableEq for Except

/-- Observable outcome of SharedMemConf::create: the returned configuration
or error, whether this call created the link file, the contents the link
file was left with (none when the call never touched the path), and the
name and byte size passed to os_impl::create_mapping (none when the
collaborator was never invoked). -/
structure CreateOutcome where
  result : Except SmError SharedMemConf
  linkCreated : Bool
  linkContents : Option String
  mappingRequested : Option (String × Nat)
deriving DecidableEq, Repr

/-- Constant string "test_mapping" of lib.rs 161, used both as the name
requested from create_mapping and as the bytes written to the link file. -/
def someStr : String := "test_mapping"

/-- Index of the first lock whose interface.init fails, if any is below n. -/
def firstFalseBelow (f : Nat → Bool) (n : Nat) : Option Nat :=
  (List.range n).find? (fun i => !f i)

/-- SharedMemConf::create (lib.rs 150-235): fail with AlreadyExists while the
link path names a file, otherwise create the link file, request the mapping
(constant name, meta_size + size bytes with wrapping usize addition), write
the layout of createMemory, initialize each lock in order, then write the
constant someStr into the link file and compare the written count against
someStr's length.  Errors return immediately; the link file, once created,
is never removed by this function. -/
def createModel (conf : SharedMemConf) (env : CreateEnv) : CreateOutcome :=
  if env.linkFileExists then
    { result := .error .alreadyExists
      linkCreated := false
      linkContents := none
      mappingRequested := none }
  else
    match env.mappingResult with
    | none =>
      { result := .error .mappingError
        linkCreated := true
        linkContents := some ""
        mappingRequested := some (someStr, w64 (conf.meta_size + conf.size)) }
    | some _uid =>
      match firstFalseBelow env.initOk conf.lock_data.length with
      | some _ =>
        { result := .error .initError
          linkCreated := true
          linkContents := some ""
          mappingRequested := some (someStr, w64 (conf.meta_size + conf.size)) }
      | none =>
        match env.writeResult with
        | none =>
          { result := .error .writeError
            linkCreated := true
            linkContents := some ""
            mappingRequested := some (someStr, w64 (conf.meta_size + conf.size)) }
        | some n =>
          if n ≠ someStr.length then
            { result := .error .persistError
              linkCreated := true
              linkContents := some (someStr.take n)
              mappingRequested := some (someStr, w64 (conf.meta_size + conf.size)) }
          else
            { result := .ok { conf with
                owner := true
                lock_data := placeLocks conf.meta_size sizeOfMetaDataHeader conf.lock_data }
              linkCreated := true
              linkContents := some someStr
              mappingRequested := some (someStr, w64 (conf.meta_size + conf.size)) }

/-- Observable outcome of dropping a SharedMem handle: whether remove_file was
invoked, whether the link file exists afterwards, and the configuration
(drop reads conf.owner and conf.link_path and mutates nothing). -/
structure DropOutcome where
  removeAttempted : Bool
  fileAfter : Bool
  conf : SharedMemConf
deriving DecidableEq, Repr

/-- Drop for SharedMem (lib.rs 247-262): close the link file, then, only when
this handle owns the region and the link path still names a file, call
remove_file and discard its result (match with a wildcard arm); removeOk
models whether the OS removal succeeds.  No error can escape: the outcome
type has no error channel, mirroring the drop signature. -/
def dropModel (conf : SharedMemConf) (fileExists removeOk : Bool) : DropOutcome :=
  if conf.owner then
    if fileExists then
      { removeAttempted := true
        fileAfter := if removeOk then false else true
        conf := conf }
    else
      { removeAttempted := false, fileAfter := fileExists, conf := conf }
  else
    { removeAttempted := false, fileAfter := fileExists, conf := conf }

/-- Success test for results of the fallible operations. -/
def isOkRes {α : Type} (r : Except SmError α) : Bool :=
  match r with
  | .ok _ => true
  | .error _ => false

lemma uid_to_type_uidOf (t : LockType) : lock_uid_to_type (uidOf t) = .ok t := by
  cases t <;> rfl

/-- C1 (amended): addLock on a configuration with user size map_size succeeds
exactly when offset differs from map_size and the wrapped machine sum
(offset + length) mod 2^64 is at most map_size; every failure is the
InvalidRange error and produces no configuration at all, so nothing of the
builder state is committed.  When offset + length does not overflow the
64-bit word this condition coincides with the one claimed. -/
theorem addLock_succeeds_iff (conf : SharedMemConf) (t : LockType) (offset length : Nat) :
    (isOkRes (addLock conf t offset length) = true ↔
      (offset ≠ conf.size ∧ w64 (offset + length) ≤ conf.size)) ∧
    (isOkRes (addLock conf t offset length) = false →
      addLock conf t offset length = .error .invalidRange) := by
  unfold addLock valid_lock_range isOkRes
  by_cases h1 : offset = conf.size
  · simp [h1]
  · by_cases h2 : w64 (offset + length) > conf.size
    · simp [h1, h2, Nat.not_le.mpr h2]
    · simp [h1, h2, Nat.not_lt.mp h2]

/-- C1 witness: a lock over the first four of ten bytes is accepted. -/
theorem addLock_succeeds_iff_witness :
    isOkRes (addLock (SharedMemConf.new "q" 10) .Mutex 0 4) = true :=
  ((addLock_succeeds_iff (SharedMemConf.new "q" 10) .Mutex 0 4).1).mpr (by decide)

/-- C1 counterexample: with map_size 10, offset 5 and length 2^64 - 3 the
mathematical sum offset + length exceeds map_size (it overflows the machine
word), yet add_lock accepts the range, because the release-mode usize
addition wraps to 2; the claimed InvalidRange failure does not happen. -/
theorem addLock_overflow_accepted :
    isOkRes (addLock (SharedMemConf.new "p" 10) .Mutex 5 (2 ^ 64 - 3)) = true ∧
    5 < 10 ∧ 10 < 5 + (2 ^ 64 - 3) := by
  refine ⟨by decide, by decide, by decide⟩

/-- C7 (amended): open fails with the header TooSmall error when the mapped
byte count is below the GlobalHeader size, and with the distinct mapping
TooSmall error when the wrapped machine sum (metadataByteSize +
userByteSize) mod 2^64 exceeds the mapped byte count; in both cases no
handle is returned.  When the recorded sum does not overflow the 64-bit
word the condition coincides with the one claimed. -/
theorem open_too_small_checks (path : String) (mem : Memory) (sz : Nat) :
    (sizeOfMetaDataHeader > sz → openMem path mem sz = .error .tooSmallHeader) ∧
    (sizeOfMetaDataHeader ≤ sz → sz < w64 (mem.meta.meta_size + mem.meta.user_size) →
      openMem path mem sz = .error .tooSmallMapping) := by
  constructor
  · intro h
    unfold openMem
    rw [if_pos h]
  · intro h1 h2
    unfold openMem
    rw [if_neg (Nat.not_lt.mpr h1), if_pos h2]

/-- Mapping contents whose GlobalHeader declares 100 bytes of metadata and 10
user bytes, with no locks and no events. -/
def memEmpty : Memory :=
  { meta := { meta_size := 100, user_size := 10, num_locks := 0, num_events := 0 }
    lockAt := fun _ => { uid := 0, offset := 0, length := 0 }
    eventAt := fun _ => { event_id := 0 } }

/-- C7 witness: a zero-byte mapping is rejected by the header size check. -/
theorem open_too_small_checks_witness :
    openMem "p" memEmpty 0 = .error .tooSmallHeader :=
  (open_too_small_checks "p" memEmpty 0).1 (by decide)

/-- Hostile GlobalHeader whose recorded sizes sum past the machine word:
meta_size + user_size = 2^64 + 92 mathematically, but the usize sum wraps
to 92. -/
def memC7 : Memory :=
  { meta := { meta_size := 2 ^ 64 - 8, user_size := 100, num_locks := 0, num_events := 0 }
    lockAt := fun _ => { uid := 0, offset := 0, length := 0 }
    eventAt := fun _ => { event_id := 0 } }

/-- C7 counterexample: the recorded metadataByteSize + userByteSize exceeds
the mapped byte count 1000, yet open does not fail with the TooSmall error
for that check: the wrapped sum 92 passes it and open fails only later, at
the final cursor check, with the CorruptMetadata error. -/
theorem open_too_small_wrap_bypassed :
    1000 < memC7.meta.meta_size + memC7.meta.user_size ∧
    openMem "p" memC7 1000 = .error .corruptEnd ∧
    openMem "p" memC7 1000 ≠ .error .tooSmallMapping := by
  refine ⟨by decide, by decide, by decide⟩

/-- C8: while a file already exists at the link path, create fails with
AlreadyExists before the OS mapping collaborator is ever invoked, creates
no link file and writes nothing, leaving any earlier region untouched; in
particular a second create with the link path of an earlier successful
create takes exactly this branch. -/
theorem create_already_exists (conf : SharedMemConf) (env : CreateEnv)
    (h : env.linkFileExists = true) :
    (createModel conf env).result = .error .alreadyExists ∧
    (createModel conf env).mappingRequested = none ∧
    (createModel conf env).linkCreated = false ∧
    (createModel conf env).linkContents = none := by
  unfold createModel
  simp [h]

/-- Configuration and environments used to evaluate the create path at
concrete inputs. -/
def confC2 : SharedMemConf := SharedMemConf.new "some_link" 64

/-- Environment of a fully successful create whose OS-assigned unique
identifier differs from the constant mapping name. -/
def envC2 : CreateEnv :=
  { linkFileExists := false
    mappingResult := some "shm_osid_1234"
    initOk := fun _ => true
    writeResult := some 12 }

/-- Environment of a create call whose OS mapping request fails. -/
def envC6 : CreateEnv :=
  { linkFileExists := false
    mappingResult := none
    initOk := fun _ => true
    writeResult := some 12 }

/-- Environment of a create call against an already existing link path. -/
def envC8 : CreateEnv :=
  { linkFileExists := true
    mappingResult := some "shm_osid_1234"
    initOk := fun _ => true
    writeResult := some 12 }

/-- C8 witness: the second create against an existing link file fails with
AlreadyExists and requests no mapping. -/
theorem create_already_exists_witness :
    (createModel confC2 envC8).result = .error .alreadyExists ∧
    (createModel confC2 envC8).mappingRequested = none ∧
    (createModel confC2 envC8).linkCreated = false ∧
    (createModel confC2 envC8).linkContents = none :=
  create_already_exists confC2 envC8 rfl

/-- C2: evaluation of the create path at a failing input.  The OS collaborator
assigns the unique identifier "shm_osid_1234", create succeeds, yet the
bytes persisted as the link descriptor contents are the constant
"test_mapping" (the requested name of lib.rs 161), not the OS-assigned
identifier, and the short-write comparison is against that constant's
length as well. -/
theorem create_persists_constant_not_unique_id :
    envC2.mappingResult = some "shm_osid_1234" ∧
    isOkRes (createModel confC2 envC2).result = true ∧
    (createModel confC2 envC2).linkContents = some "test_mapping" ∧
    ("test_mapping" : String) ≠ "shm_osid_1234" := by
  refine ⟨rfl, by decide, by decide, by decide⟩

/-- C6 counterexample: when the OS mapping request fails, create propagates
MappingError and returns no handle, but the link descriptor file it created
moments earlier remains on disk (empty), so the failed create does leave an
on-disk artifact behind. -/
theorem create_failure_leaves_link_file :
    isOkRes (createModel confC2 envC6).result = false ∧
    (createModel confC2 envC6).result = .error .mappingError ∧
    (createModel confC2 envC6).linkCreated = true ∧
    (createModel confC2 envC6).linkContents = some "" := by
  refine ⟨by decide, by decide, by decide, by decide⟩

/-- C6 (amended): every failing step of create propagates its error
immediately and no handle is returned; however the operation is not atomic
on disk: a create that fails anywhere past the existence check has already
created the link descriptor file and leaves it behind (empty or partially
written), while a create failing the existence check touches nothing. -/
theorem create_open_fail_fast (conf : SharedMemConf) (env : CreateEnv) :
    (isOkRes (createModel conf env).result = false →
      (createModel conf env).linkCreated = !env.linkFileExists) ∧
    (∀ e conf2, (createModel conf env).result = .error e →
      (createModel conf env).result ≠ .ok conf2) ∧
    (env.linkFileExists = false → isOkRes (createModel conf env).result = false →
      (createModel conf env).linkContents.isSome = true) := by
  unfold createModel
  by_cases h0 : env.linkFileExists
  · simp [h0, isOkRes]
  · simp only [Bool.not_eq_true] at h0
    simp only [h0]
    cases hm : env.mappingResult with
    | none => simp [isOkRes]
    | some uid =>
      cases hf : firstFalseBelow env.initOk conf.lock_data.length with
      | some i => simp [isOkRes]
      | none =>
        cases hw : env.writeResult with
        | none => simp [isOkRes]
        | some n =>
          by_cases hn : n = someStr.length
          · simp [hn, isOkRes]
          · simp [hn, isOkRes]

lemma createModel_requested (conf : SharedMemConf) (env : CreateEnv)
    (h : env.linkFileExists = false) :
    (createModel conf env).mappingRequested =
      some (someStr, w64 (conf.meta_size + conf.size)) := by
  unfold createModel
  simp only [h]
  cases hm : env.mappingResult with
  | none => simp
  | some uid =>
    cases hf : firstFalseBelow env.initOk conf.lock_data.length with
    | some i => simp
    | none =>
      cases hw : env.writeResult with
      | none => simp
      | some n =>
        by_cases hn : n = someStr.length
        · simp [hn]
        · simp [hn]

lemma createModel_ok_char (conf : SharedMemConf) (env : CreateEnv) (conf2 : SharedMemConf)
    (h : (createModel conf env).result = .ok conf2) :
    conf2.owner = true ∧ (createModel conf env).linkContents = some someStr := by
  unfold createModel at h ⊢
  by_cases h0 : env.linkFileExists
  · simp [h0] at h
  · simp only [Bool.not_eq_true] at h0
    simp only [h0] at h ⊢
    cases hm : env.mappingResult with
    | none => simp [hm] at h
    | some uid =>
      simp only [hm] at h ⊢
      cases hf : firstFalseBelow env.initOk conf.lock_data.length with
      | some i => simp [hf] at h
      | none =>
        simp only [hf] at h ⊢
        cases hw : env.writeResult with
        | none => simp [hw] at h
        | some n =>
          simp only [hw] at h ⊢
          by_cases hn : n = someStr.length
          · simp [hn] at h ⊢
            subst h
            rfl
          · simp [hn] at h

/-- C10: past the existence check, create always requests the OS mapping under
the constant name "test_mapping" of lib.rs 161, regardless of the link path
and of the configuration, and a successful create writes that same constant
into the link descriptor file; hence any two create calls hand the OS the
identity of the same mapping object. -/
theorem create_constant_mapping_name (conf : SharedMemConf) (env : CreateEnv)
    (h : env.linkFileExists = false) :
    (createModel conf env).mappingRequested =
      some (someStr, w64 (conf.meta_size + conf.size)) ∧
    someStr = "test_mapping" ∧
    (∀ conf2, (createModel conf env).result = .ok conf2 →
      (createModel conf env).linkContents = some someStr) ∧
    (∀ (conf3 : SharedMemConf) (env2 : CreateEnv), env2.linkFileExists = false →
      (createModel conf env).mappingRequested.map Prod.fst =
        (createModel conf3 env2).mappingRequested.map Prod.fst) := by
  refine ⟨createModel_requested conf env h, rfl, ?_, ?_⟩
  · intro conf2 hok
    exact (createModel_ok_char conf env conf2 hok).2
  · intro conf3 env2 h2
    rw [createModel_requested conf env h, createModel_requested conf3 env2 h2]
    rfl

/-- C10 witness: the concrete successful create requests the constant name and
persists it. -/
theorem create_constant_mapping_name_witness :
    (createModel confC2 envC2).mappingRequested =
      some (someStr, w64 (confC2.meta_size + confC2.size)) ∧
    someStr = "test_mapping" ∧
    (∀ conf2, (createModel confC2 envC2).result = .ok conf2 →
      (createModel confC2 envC2).linkContents = some someStr) ∧
    (∀ (conf3 : SharedMemConf) (env2 : CreateEnv), env2.linkFileExists = false →
      (createModel confC2 envC2).mappingRequested.map Prod.fst =
        (createModel conf3 env2).mappingRequested.map Prod.fst) :=
  create_constant_mapping_name confC2 envC2 rfl

lemma openMem_ok_owner (path : String) (mem : Memory) (sz : Nat) (conf : SharedMemConf)
    (h : openMem path mem sz = .ok conf) : conf.owner = false := by
  unfold openMem at h
  split at h
  · exact absurd h (by simp)
  · split at h
    · exact absurd h (by simp)
    · split at h
      · exact absurd h (by simp)
      · split at h
        · exact absurd h (by simp)
        · split at h
          · exact absurd h (by simp)
          · simp only [Except.ok.injEq] at h
            subst h
            rfl

/-- C9: teardown of a handle reconstructed by open (owner false) never touches
the link descriptor, teardown of the handle returned by create (owner true)
removes it when it still exists; when the file was already externally
deleted, or when removal itself fails, nothing is escalated (the drop model
has no error channel, mirroring the drop signature that ignores the
remove_file result), and the configuration carried by the handle is left
unchanged. -/
theorem drop_teardown (conf : SharedMemConf) (fe rm : Bool) (path : String)
    (mem : Memory) (sz : Nat) (conf2 : SharedMemConf)
    (conf3 : SharedMemConf) (env : CreateEnv) (conf4 : SharedMemConf) :
    (conf.owner = false →
      (dropModel conf fe rm).removeAttempted = false ∧
      (dropModel conf fe rm).fileAfter = fe) ∧
    (openMem path mem sz = .ok conf2 →
      conf2.owner = false ∧
      (dropModel conf2 fe rm).removeAttempted = false ∧
      (dropModel conf2 fe rm).fileAfter = fe) ∧
    ((createModel conf3 env).result = .ok conf4 →
      conf4.owner = true ∧
      (dropModel conf4 true true).removeAttempted = true ∧
      (dropModel conf4 true true).fileAfter = false ∧
      (dropModel conf4 false rm).removeAttempted = false ∧
      (dropModel conf4 false rm).fileAfter = false ∧
      (dropModel conf4 true false).removeAttempted = true ∧
      (dropModel conf4 true false).fileAfter = true) ∧
    (dropModel conf fe rm).conf = conf := by
  refine ⟨?_, ?_, ?_, ?_⟩
  · intro h
    unfold dropModel
    simp [h]
  · intro h
    have ho := openMem_ok_owner path mem sz conf2 h
    refine ⟨ho, ?_, ?_⟩ <;> · unfold dropModel; simp [ho]
  · intro h
    have ho := (createModel_ok_char conf3 env conf4 h).1
    refine ⟨ho, ?_, ?_, ?_, ?_, ?_, ?_⟩ <;> · unfold dropModel; simp [ho]
  · unfold dropModel
    by_cases h : conf.owner <;> by_cases h2 : fe <;> simp [h, h2]

/-- C9 witness: a non-owning configuration never removes the link file and the
link file survives its teardown. -/
theorem drop_teardown_witness :
    (dropModel confC2 true true).removeAttempted = false ∧
    (dropModel confC2 true true).fileAfter = true :=
  (drop_teardown confC2 true true "p" memEmpty 0 confC2 confC2 envC2 confC2).1 rfl

/-- C5: open returns a handle only when the cursor left after consuming the
GlobalHeader, all lockCount lock entries with their native footprints and
all eventCount event entries lands exactly on the declared user-region
start (the recorded metadata size past the base); whenever the walks
complete but the cursor mismatches, short or long, open fails with the
final CorruptMetadata error. -/
theorem open_cursor_exactness (path : String) (mem : Memory) (sz : Nat) :
    (∀ conf, openMem path mem sz = .ok conf →
      openFinalCursor mem = some mem.meta.meta_size) ∧
    (sizeOfMetaDataHeader ≤ sz → w64 (mem.meta.meta_size + mem.meta.user_size) ≤ sz →
      ∀ cur2, openFinalCursor mem = some cur2 → cur2 ≠ mem.meta.meta_size →
        openMem path mem sz = .error .corruptEnd) := by
  constructor
  · intro conf h
    unfold openMem at h
    split at h
    · exact absurd h (by simp)
    · split at h
      · exact absurd h (by simp)
      · split at h
        · exact absurd h (by simp)
        · rename_i locks cur heq
          split at h
          · exact absurd h (by simp)
          · rename_i cur2 heq2
            split at h
            · exact absurd h (by simp)
            · rename_i hne
              unfold openFinalCursor
              rw [heq]
              simp [heq2, of_not_not hne]
  · intro h1 h2 cur2 hf hne
    unfold openMem
    rw [if_neg (Nat.not_lt.mpr h1), if_neg (Nat.not_lt.mpr h2)]
    unfold openFinalCursor at hf
    split at hf
    · exact absurd hf (by simp)
    · rename_i locks cur heq
      split at hf
      · exact absurd hf (by simp)
      · rename_i c2 heq2
        simp only [Option.some.injEq] at hf
        subst hf
        rw [if_pos hne]

/-- C5 witness: a header that declares 100 metadata bytes but contains no lock
and no event entries leaves the cursor at 32, so open fails with the final
CorruptMetadata error. -/
theorem open_cursor_exactness_witness :
    openMem "p" memEmpty 200 = .error .corruptEnd :=
  (open_cursor_exactness "p" memEmpty 200).2 (by decide) (by decide) 32 (by decide) (by decide)

lemma openLocksAux_reads_bounded (mem : Memory) (user size : Nat) :
    ∀ (n cur p : Nat), p ∈ (openLocksAux mem user size cur n).2 →
      p + sizeOfLockHeader ≤ user := by
  intro n
  induction n with
  | zero =>
    intro cur p hp
    simp [openLocksAux] at hp
  | succ n ih =>
    intro cur p hp
    unfold openLocksAux at hp
    by_cases h1 : cur + sizeOfLockHeader > user
    · simp [h1] at hp
    · rw [if_neg h1] at hp
      cases hu : lock_uid_to_type (mem.lockAt cur).uid with
      | error e =>
        simp only [hu] at hp
        simp at hp
        subst hp
        omega
      | ok lt =>
        simp only [hu] at hp
        by_cases h2 : valid_lock_range size (mem.lockAt cur).offset (mem.lockAt cur).length = false
        · simp [h2] at hp
          subst hp
          omega
        · rw [if_neg h2] at hp
          by_cases h3 : cur + (sizeOfLockHeader + implSizeOf lt) > user
          · simp [h3] at hp
            subst hp
            omega
          · rw [if_neg h3] at hp
            simp only [List.mem_cons] at hp
            rcases hp with rfl | hp
            · omega
            · exact ih _ _ hp

/-- C3: every position at which the open walk reads the fields of a
LockEntryHeader lies, together with the whole header, before the declared
user-region start: the bound check performed after the cursor advance and
before the field reads guarantees position + header size is at most the
recorded metadata size, so every header byte read is strictly below the
user-region start, whatever hostile or corrupted contents the mapping
holds. -/
theorem open_lock_header_reads_before_user (path : String) (mem : Memory) (sz p : Nat)
    (hp : p ∈ openMemLockReads path mem sz) :
    p + sizeOfLockHeader ≤ mem.meta.meta_size ∧
    ∀ b, b < sizeOfLockHeader → p + b < mem.meta.meta_size := by
  unfold openMemLockReads at hp
  split at hp
  · simp at hp
  · split at hp
    · simp at hp
    · have hb := openLocksAux_reads_bounded mem mem.meta.meta_size mem.meta.user_size
        mem.meta.num_locks sizeOfMetaDataHeader p hp
      exact ⟨hb, fun b hlt => by omega⟩

/-- Well-formedness the builder guarantees for every lock it accepts: the
stored uid is the tag of the bound lock kind and the range was validated. -/
def locksWellFormed (size : Nat) (ls : List GenericLock) : Prop :=
  ∀ l ∈ ls, l.uid = uidOf l.ty ∧ valid_lock_range size l.offset l.length = true

/-- Agreement of a LockHeader reader with the layout of the given locks laid
out consecutively from the given cursor. -/
def memHasLayoutF (f : Nat → LockHeader) : Nat → List GenericLock → Prop
  | _, [] => True
  | cur, l :: ls =>
    f cur = { uid := l.uid, offset := l.offset, length := l.length } ∧
    memHasLayoutF f (cur + (sizeOfLockHeader + implSizeOf l.ty)) ls

lemma layoutLockAt_skip (l : GenericLock) (ls : List GenericLock) (cur p : Nat)
    (h : cur < p) :
    layoutLockAt cur (l :: ls) p =
      layoutLockAt (cur + (sizeOfLockHeader + implSizeOf l.ty)) ls p := by
  simp only [layoutLockAt]
  rw [if_neg (Nat.ne_of_gt h)]

lemma memHasLayoutF_congr :
    ∀ (ls : List GenericLock) (cur : Nat) (f g : Nat → LockHeader),
      (∀ p, cur ≤ p → f p = g p) → memHasLayoutF f cur ls → memHasLayoutF g cur ls := by
  intro ls
  induction ls with
  | nil => intro cur f g hfg hl; trivial
  | cons l ls ih =>
    intro cur f g hfg hl
    obtain ⟨h1, h2⟩ := hl
    refine ⟨(hfg cur le_rfl).symm.trans h1, ?_⟩
    exact ih _ _ _ (fun p hp => hfg p (by omega)) h2

lemma memHasLayoutF_layout :
    ∀ (ls : List GenericLock) (cur : Nat), memHasLayoutF (layoutLockAt cur ls) cur ls := by
  intro ls
  induction ls with
  | nil => intro cur; trivial
  | cons l ls ih =>
    intro cur
    have h24 : 0 < sizeOfLockHeader := by decide
    refine ⟨?_, ?_⟩
    · unfold layoutLockAt
      rw [if_pos rfl]
    · refine memHasLayoutF_congr ls _ _ _ ?_ (ih (cur + (sizeOfLockHeader + implSizeOf l.ty)))
      intro p hp
      exact (layoutLockAt_skip l ls cur p (by omega)).symm

lemma uidOf_pos_of_uid (t : LockType) : uidOf t = 0 ∨ uidOf t = 1 := by
  cases t
  · exact Or.inl rfl
  · exact Or.inr rfl

lemma openLocksAux_layout :
    ∀ (ls : List GenericLock) (mem : Memory) (user size cur : Nat),
      memHasLayoutF mem.lockAt cur ls →
      locksWellFormed size ls →
      cur + lockBytes ls ≤ user →
      (openLocksAux mem user size cur ls.length).1 =
        .ok (placeLocks user cur ls, cur + lockBytes ls) := by
  intro ls
  induction ls with
  | nil =>
    intro mem user size cur _ _ _
    simp [openLocksAux, placeLocks, lockBytes]
  | cons l ls ih =>
    intro mem user size cur hlay hwf hb
    obtain ⟨hhead, htail⟩ := hlay
    obtain ⟨hu, hv⟩ := hwf l (List.mem_cons_self l ls)
    simp only [lockBytes] at hb
    have h1 : ¬ (cur + sizeOfLockHeader > user) := by omega
    have h3 : ¬ (cur + (sizeOfLockHeader + implSizeOf l.ty) > user) := by omega
    have hrest := ih mem user size (cur + (sizeOfLockHeader + implSizeOf l.ty)) htail
      (fun x hx => hwf x (List.mem_cons_of_mem l hx)) (by omega)
    rw [List.length_cons]
    simp only [openLocksAux]
    rw [if_neg h1]
    simp only [hhead, hu, uid_to_type_uidOf]
    rw [if_neg (by simp [hv])]
    rw [if_neg h3]
    simp only [hrest]
    simp only [placeLocks, lockBytes, Except.ok.injEq, Prod.mk.injEq, List.cons.injEq]
    refine ⟨⟨?_, trivial⟩, by omega⟩
    rw [← hu]

/-- Metadata size as accumulated by the chain of add_lock calls: the
GlobalHeader size plus, per lock, the wrapped usize addition of lib.rs 135. -/
def metaFoldLocks (ls : List GenericLock) : Nat :=
  List.foldl (fun m l => w64 (m + (sizeOfLockHeader + implSizeOf l.ty)))
    sizeOfMetaDataHeader ls

/-- Invariant of every configuration the builder produces. -/
def confGood (c : SharedMemConf) : Prop :=
  locksWellFormed c.size c.lock_data ∧ c.meta_size = metaFoldLocks c.lock_data

lemma addLock_good (c : SharedMemConf) (t : LockType) (off len : Nat)
    (c2 : SharedMemConf) (hg : confGood c) (h : addLock c t off len = .ok c2) :
    confGood c2 ∧ c2.size = c.size ∧ c2.owner = c.owner ∧
      c2.event_data = c.event_data ∧ c2.link_path = c.link_path := by
  unfold addLock at h
  by_cases hv : valid_lock_range c.size off len = false
  · simp [hv] at h
  · rw [if_neg hv] at h
    simp only [Except.ok.injEq] at h
    subst h
    have hvt : valid_lock_range c.size off len = true := by
      cases hbe : valid_lock_range c.size off len
      · exact absurd hbe hv
      · rfl
    refine ⟨⟨?_, ?_⟩, rfl, rfl, rfl, rfl⟩
    · intro l hl
      simp only [List.mem_append, List.mem_singleton] at hl
      rcases hl with hl | rfl
      · exact hg.1 l hl
      · exact ⟨rfl, hvt⟩
    · simp only [metaFoldLocks, List.foldl_append, List.foldl_cons, List.foldl_nil]
      rw [← metaFoldLocks, ← hg.2]

lemma buildConfAux_good :
    ∀ (reqs : List (LockType × Nat × Nat)) (c conf : SharedMemConf),
      confGood c → buildConfAux c reqs = .ok conf →
      confGood conf ∧ conf.size = c.size ∧ conf.owner = c.owner ∧
        conf.event_data = c.event_data ∧ conf.link_path = c.link_path := by
  intro reqs
  induction reqs with
  | nil =>
    intro c conf hg h
    simp only [buildConfAux, Except.ok.injEq] at h
    subst h
    exact ⟨hg, rfl, rfl, rfl, rfl⟩
  | cons r rs ih =>
    intro c conf hg h
    obtain ⟨t, off, len⟩ := r
    simp only [buildConfAux] at h
    cases ha : addLock c t off len with
    | error e => rw [ha] at h; exact absurd h (by simp)
    | ok c2 =>
      rw [ha] at h
      obtain ⟨hg2, hs, ho, he, hp⟩ := addLock_good c t off len c2 hg ha
      obtain ⟨hg3, hs2, ho2, he2, hp2⟩ := ih c2 conf hg2 h
      exact ⟨hg3, hs2.trans hs, ho2.trans ho, he2.trans he, hp2.trans hp⟩

lemma metaFold_nowrap :
    ∀ (ls : List GenericLock) (s : Nat), s + lockBytes ls < 2 ^ 64 →
      List.foldl (fun m l => w64 (m + (sizeOfLockHeader + implSizeOf l.ty))) s ls =
        s + lockBytes ls := by
  intro ls
  induction ls with
  | nil =>
    intro s h
    simp [lockBytes]
  | cons l ls ih =>
    intro s h
    simp only [lockBytes] at h
    simp only [List.foldl_cons]
    rw [show w64 (s + (sizeOfLockHeader + implSizeOf l.ty)) =
        s + (sizeOfLockHeader + implSizeOf l.ty) from Nat.mod_eq_of_lt (by omega)]
    rw [ih _ (by omega)]
    simp only [lockBytes]
    omega

/-- Kind tag, offset and length of a lock descriptor: the persisted part the
round-trip is about (the two addresses are per-mapping derived state). -/
def GenericLock.sig (l : GenericLock) : Nat × Nat × Nat := (l.uid, l.offset, l.length)

lemma placeLocks_sig :
    ∀ (ls : List GenericLock) (user cur : Nat),
      (placeLocks user cur ls).map GenericLock.sig = ls.map GenericLock.sig := by
  intro ls
  induction ls with
  | nil => intro user cur; rfl
  | cons l ls ih =>
    intro user cur
    simp only [placeLocks, List.map_cons, ih]
    rfl

lemma placeLocks_length :
    ∀ (ls : List GenericLock) (user cur : Nat),
      (placeLocks user cur ls).length = ls.length := by
  intro ls
  induction ls with
  | nil => intro user cur; rfl
  | cons l ls ih =>
    intro user cur
    simp only [placeLocks, List.length_cons, ih]

/-- C4: a configuration assembled by new and a chain of successful add_lock
calls, once created and then opened from the same region contents,
reconstructs a configuration with the same lock count and, position by
position in order, identical kind tags, offsets and lengths, and with the
creating configuration's user size and metadata size.  The no-overflow
bound keeps the accumulated metadata plus user size inside the machine
word, which every mapping the OS can actually produce satisfies. -/
theorem create_open_roundtrip (path path2 : String) (map_size : Nat)
    (reqs : List (LockType × Nat × Nat)) (conf : SharedMemConf)
    (hb : buildConf path map_size reqs = .ok conf)
    (hw : sizeOfMetaDataHeader + (lockBytes conf.lock_data + conf.size) < 2 ^ 64) :
    ∃ conf2,
      openMem path2 (createMemory conf) (conf.meta_size + conf.size) = .ok conf2 ∧
      conf2.lock_data.length = conf.lock_data.length ∧
      conf2.lock_data.map GenericLock.sig = conf.lock_data.map GenericLock.sig ∧
      conf2.size = conf.size ∧
      conf2.meta_size = conf.meta_size := by
  have hnew : confGood (SharedMemConf.new path map_size) := by
    constructor
    · intro l hl
      simp [SharedMemConf.new] at hl
    · simp [SharedMemConf.new, metaFoldLocks]
  obtain ⟨hg, hs, ho, he, hp⟩ := buildConfAux_good reqs _ conf hnew hb
  have hev : conf.event_data = [] := by simpa [SharedMemConf.new] using he
  have hms : conf.meta_size = sizeOfMetaDataHeader + lockBytes conf.lock_data := by
    rw [hg.2]
    exact metaFold_nowrap conf.lock_data sizeOfMetaDataHeader (by omega)
  have hlocks := openLocksAux_layout conf.lock_data (createMemory conf)
    conf.meta_size conf.size sizeOfMetaDataHeader
    (memHasLayoutF_layout conf.lock_data sizeOfMetaDataHeader)
    hg.1 (by omega)
  refine ⟨{ owner := false, link_path := path2, size := conf.size,
            meta_size := conf.meta_size,
            lock_data := placeLocks conf.meta_size sizeOfMetaDataHeader conf.lock_data,
            event_data := [] }, ?_, ?_, ?_, rfl, rfl⟩
  · unfold openMem
    simp only [createMemory]
    simp only [createMemory] at hlocks
    rw [if_neg (by omega)]
    rw [if_neg (by rw [show w64 (conf.meta_size + conf.size) = conf.meta_size + conf.size
          from Nat.mod_eq_of_lt (by omega)]; omega)]
    rw [hlocks]
    simp only [hev, List.length_nil, openEvents]
    rw [if_neg (by omega)]
  · exact placeLocks_length conf.lock_data conf.meta_size sizeOfMetaDataHeader
  · exact placeLocks_sig conf.lock_data conf.meta_size sizeOfMetaDataHeader

/-- Configuration produced by new("a", 16) followed by one accepted mutex lock
over the first four bytes: metadata size 32 + 24 + 40 = 96. -/
def confW : SharedMemConf :=
  { owner := false
    link_path := "a"
    size := 16
    meta_size := 96
    lock_data := [{ uid := 0, offset := 0, length := 4, lock_ptr := 0, data_ptr := 0,
                    ty := .Mutex }]
    event_data := [] }

/-- C4 witness: the concrete one-lock configuration builds, creates and
reopens with identical lock list signature and sizes. -/
theorem create_open_roundtrip_witness :
    buildConf "a" 16 [(LockType.Mutex, 0, 4)] = .ok confW ∧
    (∃ conf2,
      openMem "b" (createMemory confW) (confW.meta_size + confW.size) = .ok conf2 ∧
      conf2.lock_data.length = confW.lock_data.length ∧
      conf2.lock_data.map GenericLock.sig = confW.lock_data.map GenericLock.sig ∧
      conf2.size = confW.size ∧
      conf2.meta_size = confW.meta_size) :=
  ⟨by decide,
   create_open_roundtrip "a" "b" 16 [(LockType.Mutex, 0, 4)] confW (by decide) (by decide)⟩

/-- C3 witness: opening the region created from the one-lock configuration
reads exactly one LockEntryHeader, at position 32, and 32 plus the header
size stays at or below the declared user-region start 96. -/
theorem open_lock_header_reads_witness :
    32 + sizeOfLockHeader ≤ (createMemory confW).meta.meta_size :=
  (open_lock_header_reads_before_user "b" (createMemory confW) 112 32 (by decide)).1

/-- C6 witness: the create whose mapping request fails returns an error and,
having passed the existence check, left the link file created. -/
theorem create_open_fail_fast_witness :
    (createModel confC2 envC6).linkCreated = !envC6.linkFileExists :=
  (create_open_fail_fast confC2 envC6).1 (by decide)
